import Mathlib

/-!
Verification development for the `type_cellar` value-conversion library.

The definitions below are a shallow embedding of the Python sources:

* `src/type_cellar/wrappers.py` — versioned / staged table names
  (`VersionStampedName._validate`, `_utc_numeric_version_stamp`,
  `_utc_numeric_version_cleaner`, `UtcVersionStampedTableName`,
  `StagingTableName`, `TableInfo`);
* `src/type_cellar/deduping.py` — dedupe-key derivation
  (`DedupeKeyMeta.__init__`, `underlying`, `__str__`, `__eq__`,
  `dedupe_key_res_hook_factory`) with `json.dumps(..., sort_keys=True)`
  and `hashlib.sha256(...).hexdigest()` modelled explicitly;
* `src/type_cellar/_types.py` and `src/type_cellar/converters/sentinels.py`
  — sentinel subtypes and their structure / destructure hooks.

Python strings are Lean `String`s (sequences of unicode scalar values),
byte strings are `List Nat` with entries below 256, and raised exceptions
are modelled with `Option` / `Except`.
-/

namespace TypeCellar

/-! ## String helpers shared by several Python methods -/

/-- Characters of `s` after the first occurrence of `sep`, if any.
Models the tail of Python `s.split(sep, 1)`. -/
def splitAfterFirst (sep : Char) : List Char → Option (List Char)
  | [] => none
  | c :: rest => if c = sep then some rest else splitAfterFirst sep rest

/-- Python `s.split(sep, 1)[-1]`: the part after the first `sep`, or the
whole string when `sep` does not occur. -/
def splitOnceTail (sep : Char) (s : String) : String :=
  match splitAfterFirst sep s.data with
  | some rest => ⟨rest⟩
  | none => s

/-- Python `s.split(".")` on the character list: splits at every dot and
keeps empty segments, never returning an empty list. -/
def splitOnDot : List Char → List (List Char)
  | [] => [[]]
  | c :: rest =>
    match splitOnDot rest with
    | [] => [[]]
    | h :: t => if c = '.' then [] :: h :: t else (c :: h) :: t

/-- Python `sep.join(parts)` on character lists. -/
def joinWith (sep : List Char) : List (List Char) → List Char
  | [] => []
  | [x] => x
  | x :: y :: t => x ++ sep ++ joinWith sep (y :: t)

/-- Python `s.removesuffix(suf)`: drops one trailing occurrence of a
non-empty `suf` when present, otherwise returns `s` unchanged. -/
def removeSuffixL (l suf : List Char) : List Char :=
  if suf ≠ [] ∧ suf <:+ l then l.take (l.length - suf.length) else l

/-! ## wrappers.py — table names and the stamp/unstamp strategies -/

/-- Model of `attr`-defined `TableInfo`: a fully qualified BigQuery
table name as the triple `(project_id, dataset_id, table_id)`. -/
structure TableInfo where
  project_id : String
  dataset_id : String
  table_id : String
deriving DecidableEq, Repr

/-- Property `TableInfo.full_table_id`:
`f"{self.project_id}.{self.dataset_id}.{self.table_id}"`. -/
def TableInfo.full_table_id (t : TableInfo) : String :=
  t.project_id ++ "." ++ t.dataset_id ++ "." ++ t.table_id

/-- Payload of `VersionStampError` (`_VersionStampErrorArgs` in
`_types.py`): the three diagnostic fields the error carries. -/
structure VersionStampErrorInfo where
  raw_name : String
  stamped_name : String
  unstamped_name : String
deriving DecidableEq, Repr

/-- Exceptions escaping `VersionStampedName._validate`: either a
`VersionStampError` or some other exception propagating unchanged. -/
inductive PyErr where
  | versionStamp (info : VersionStampErrorInfo)
  | propagated (msg : String)
deriving DecidableEq, Repr

/-- Model of `VersionStampedName._validate` for a strategy whose
`stamp` / `unstamp` may raise (`Except.error` models a raised
exception).  Faithful to the source: `_attempt_assign(True)` computes
and stores `self.stamped` (placeholder + `VersionStampError` if it
raises); `_attempt_assign(False)` stores `self.stamped` again — the
source assigns `self.stamped`, not `self.unstamped`, under the
`"unstamped_name"` key; `_valid_roundtrip` then computes
`self.unstamped` outside any `try`, so an exception from `unstamp`
propagates as-is. -/
def validateName (stamp unstamp : String → Except String String) (raw : String) :
    Except PyErr Unit :=
  match stamp raw with
  | .error _ => .error (.versionStamp ⟨raw, "<error when calling self.stamped>", ""⟩)
  | .ok stamped =>
    let errorArgs : VersionStampErrorInfo := ⟨raw, stamped, stamped⟩
    match unstamp stamped with
    | .error e => .error (.propagated e)
    | .ok unstamped =>
      if unstamped = raw then .ok () else .error (.versionStamp errorArgs)

/-- Python `str.isnumeric` restricted to the ASCII digits; the table
names and timestamps in play are ASCII, and neither the underscore nor any
letter is numeric under either reading. -/
def pyIsNumeric (c : Char) : Bool := c.isDigit

/-- Loop body of `_find_split_point` inside
`_utc_numeric_version_cleaner`: the input list is the table name
reversed, `n` is the current negative index.  Each step first returns
`None` when the character is not numeric, then returns `n` when it is
an underscore, else continues leftwards. -/
def findSplitPointAux : List Char → Int → Option Int
  | [], _ => none
  | c :: rest, n =>
    if ¬ pyIsNumeric c then none
    else if c = '_' then some n
    else findSplitPointAux rest (n - 1)

/-- Helper `_find_split_point` of `_utc_numeric_version_cleaner`:
scans from the end of the string at index `-1`. -/
def findSplitPoint (s : String) : Option Int :=
  findSplitPointAux s.data.reverse (-1)

/-- Python slice `s[:idx]` for the negative index returned by
`_find_split_point`. -/
def pySliceToNeg (s : String) (idx : Int) : String :=
  ⟨s.data.take (s.data.length - (-idx).toNat)⟩

/-- Model of `_utc_numeric_version_cleaner`; `none` is the `FAILED_OP`
sentinel. -/
def utcNumericVersionCleaner (s : String) : Option String :=
  match findSplitPoint s with
  | none => none
  | some idx => some (pySliceToNeg s idx)

/-- Inner `_stamp` of `_utc_numeric_version_stamp`; the timestamp
`ts` stands for the strftime rendering (format `%Y%m%dT%H%M%S`) of the
current UTC time: an 8-digit date, a literal `T`, and a 6-digit time. -/
def utcStampOne (ts name : String) : String := name ++ "_" ++ ts

/-- Model of `_utc_numeric_version_stamp`: stamps the last dot-separated
segment of a possibly fully qualified name. -/
def utcNumericVersionStamp (ts tableName : String) : String :=
  let parts := splitOnDot tableName.data
  match parts with
  | [] => utcStampOne ts tableName
  | [_] => utcStampOne ts tableName
  | _ :: _ :: _ =>
    ⟨joinWith ['.'] (parts.dropLast ++ [(utcStampOne ts ⟨parts.getLastD []⟩).data])⟩

/-- Model of `UtcVersionStampedTableName.unstamp`:
`str(_utc_numeric_version_cleaner(name))`.  `typing_extensions.Sentinel`
has no `__str__`, and its `__repr__` wraps the sentinel name in angle
brackets, so a failed
cleaning renders as the string `"<FAILED_OP>"`. -/
def utcUnstamp (s : String) : String :=
  match utcNumericVersionCleaner s with
  | some r => r
  | none => "<FAILED_OP>"

/-- Constructor of `UtcVersionStampedTableName` from an explicit
`project_id` / `dataset_id` / `table_id` triple: resolves
`raw = self.full_table_id` and runs `_validate`, returning the instance
only when validation passes. -/
def mkUtcVersionStampedTableName (ts : String) (t : TableInfo) : Except PyErr TableInfo :=
  (validateName (fun s => .ok (utcNumericVersionStamp ts s))
    (fun s => .ok (utcUnstamp s)) t.full_table_id).map (fun _ => t)

/-- Model of `StagingTableName.stamp`: appends the class default
suffix `"_staging"` (the classmethod reads `cls._default_suffix`, not
the per-instance `_suffix`). -/
def stagingStamp (s : String) : String := s ++ "_staging"

/-- Model of `StagingTableName.unstamp`: `name.removesuffix("_staging")`. -/
def stagingUnstamp (s : String) : String :=
  ⟨removeSuffixL s.data "_staging".data⟩

/-- Constructor of `StagingTableName` from an explicit triple, running
`_validate` on `raw = self.full_table_id`. -/
def mkStagingTableName (t : TableInfo) : Except PyErr TableInfo :=
  (validateName (fun s => .ok (stagingStamp s))
    (fun s => .ok (stagingUnstamp s)) t.full_table_id).map (fun _ => t)

/-! ### Facts about the UTC-numeric cleaner and the staging strategy -/

/-- The underscore test in `_find_split_point` is unreachable: the loop
first demands `table_name[n].isnumeric()`, and the underscore is not
numeric, so
the scan can only ever fall off the string or bail out. -/
theorem findSplitPointAux_eq_none (l : List Char) : ∀ n, findSplitPointAux l n = none := by
  induction l with
  | nil => intro n; rfl
  | cons c rest ih =>
    intro n
    simp only [findSplitPointAux]
    by_cases hnum : pyIsNumeric c
    · have hne : ¬ c = '_' := by
        intro h; subst h; simp [pyIsNumeric, Char.isDigit] at hnum
      simp [hnum, hne, ih]
    · simp [hnum]

theorem findSplitPoint_eq_none (s : String) : findSplitPoint s = none := by
  simp [findSplitPoint, findSplitPointAux_eq_none]

theorem utcUnstamp_eq_failed (s : String) : utcUnstamp s = "<FAILED_OP>" := by
  simp [utcUnstamp, utcNumericVersionCleaner, findSplitPoint_eq_none]

/-- Removing a suffix that was just appended recovers the base name. -/
theorem removeSuffixL_append (a suf : List Char) (h : suf ≠ []) :
    removeSuffixL (a ++ suf) suf = a := by
  have hsuf : suf <:+ a ++ suf := ⟨a, rfl⟩
  simp [removeSuffixL, h, hsuf]

theorem stagingUnstamp_stamp (s : String) : stagingUnstamp (stagingStamp s) = s := by
  have h : (s ++ "_staging").data = s.data ++ "_staging".data := by
    simp [String.data_append]
  have h2 : removeSuffixL (s.data ++ "_staging".data) "_staging".data = s.data := by
    apply removeSuffixL_append
    decide
  simp [stagingUnstamp, stagingStamp, h, h2]

theorem mkStagingTableName_ok (t : TableInfo) : mkStagingTableName t = .ok t := by
  simp [mkStagingTableName, validateName, stagingUnstamp_stamp, Except.map]

/-- A full table id always contains a dot, hence never equals the
rendered failure sentinel. -/
theorem full_table_id_ne_failed (t : TableInfo) : t.full_table_id ≠ "<FAILED_OP>" := by
  intro h
  have hdot : '.' ∈ t.full_table_id.data := by
    have : t.full_table_id.data
        = t.project_id.data ++ '.' :: (t.dataset_id.data ++ '.' :: t.table_id.data) := by
      simp [TableInfo.full_table_id, String.data_append]
    rw [this]
    simp
  rw [h] at hdot
  simp at hdot

/-- Constructing a `UtcVersionStampedTableName` always raises
`VersionStampError`: the unstamp step always yields `"<FAILED_OP>"`,
which never equals the dotted raw name. -/
theorem mkUtcVersionStampedTableName_always_raises (ts : String) (t : TableInfo) :
    mkUtcVersionStampedTableName ts t
      = .error (.versionStamp
          ⟨t.full_table_id, utcNumericVersionStamp ts t.full_table_id,
            utcNumericVersionStamp ts t.full_table_id⟩) := by
  have hne : utcUnstamp (utcNumericVersionStamp ts t.full_table_id) ≠ t.full_table_id := by
    rw [utcUnstamp_eq_failed]
    exact fun h => full_table_id_ne_failed t h.symm
  simp only [mkUtcVersionStampedTableName, validateName]
  rw [if_neg hne]
  simp [Except.map]

/-! ## deduping.py — data model

Values of the `SalientAttributes` TypedDict are either Python `str` or
`bytes`; keyword arguments are an insertion-ordered association list
with pairwise-distinct keys (a Python call cannot repeat a keyword). -/

inductive SVal where
  | str (s : String)
  | bytes (b : List Nat)
deriving DecidableEq, Repr

/-- Python `kwargs.get(k)`: the value at the first (unique) occurrence
of key `k`. -/
def lookupKw (k : String) : List (String × SVal) → Option SVal
  | [] => none
  | (k', v) :: rest => if k' = k then some v else lookupKw k rest

/-- Python `kwargs.pop(k, None)` as far as the remaining dict goes:
drops every entry with key `k`. -/
def removeKw (k : String) (kw : List (String × SVal)) : List (String × SVal) :=
  kw.filter (fun p => ¬ p.1 = k)

/-- Python truthiness of `kwargs.get(...)`: `None`, `""` and `b""` are
falsy, everything else in play is truthy. -/
def svalTruthy : Option SVal → Bool
  | none => false
  | some (.str s) => ¬ s = ""
  | some (.bytes b) => ¬ b = []

/-- Model of `DedupeKeyMeta.underlying`: `s.split(":", 1)[-1]`, i.e.
everything after the first colon, or `s` itself when there is none. -/
def underlying (s : String) : String := splitOnceTail ':' s

/-! ### json.dumps with sort_keys=True (CPython defaults) -/

/-- Lowercase hexadecimal digit. -/
def hexDigit (n : Nat) : Char :=
  if n < 10 then Char.ofNat (48 + n) else Char.ofNat (87 + n)

/-- Four lowercase hex digits, as used by the `\uXXXX` escapes of the
`json` module. -/
def hex4 (n : Nat) : String :=
  ⟨[hexDigit (n / 4096 % 16), hexDigit (n / 256 % 16), hexDigit (n / 16 % 16), hexDigit (n % 16)]⟩

/-- CPython `json.dumps` escaping for one character with the default
`ensure_ascii=True`: short escapes for the usual control characters, `\uXXXX`
(surrogate pairs above U+FFFF) for anything outside printable ASCII. -/
def jsonEscapeChar (c : Char) : String :=
  if c = '"' then "\\\""
  else if c = '\\' then "\\\\"
  else if c.toNat = 8 then "\\b"
  else if c.toNat = 12 then "\\f"
  else if c.toNat = 10 then "\\n"
  else if c.toNat = 13 then "\\r"
  else if c.toNat = 9 then "\\t"
  else if c.toNat < 32 ∨ 127 ≤ c.toNat then
    if c.toNat < 65536 then "\\u" ++ hex4 c.toNat
    else
      "\\u" ++ hex4 (55296 + (c.toNat - 65536) / 1024)
        ++ "\\u" ++ hex4 (56320 + (c.toNat - 65536) % 1024)
  else String.singleton c

/-- JSON rendering of a Python `str`. -/
def jsonQuote (s : String) : String :=
  "\"" ++ String.join (s.data.map jsonEscapeChar) ++ "\""

/-- JSON rendering of a salient value; `bytes` is not JSON
serializable, so `json.dumps` raises `TypeError` (`none`). -/
def jsonValStr : SVal → Option String
  | .str s => some (jsonQuote s)
  | .bytes _ => none

/-- Lexicographic comparison of character lists by code point — the
order that Python `sorted` puts `str` keys in. -/
def lexLe : List Char → List Char → Bool
  | [], _ => true
  | _ :: _, [] => false
  | a :: as, b :: bs => if a = b then lexLe as bs else decide (a < b)

theorem lexLe_refl : ∀ x, lexLe x x = true
  | [] => rfl
  | a :: as => by simp [lexLe, lexLe_refl as]

theorem lexLe_total : ∀ x y, lexLe x y = true ∨ lexLe y x = true
  | [], _ => Or.inl rfl
  | _ :: _, [] => Or.inr rfl
  | a :: as, b :: bs => by
    by_cases hab : a = b
    · subst hab
      simpa [lexLe] using lexLe_total as bs
    · rcases lt_or_gt_of_ne hab with hlt | hgt
      · exact Or.inl (by simp [lexLe, hab, hlt])
      · have hba : ¬ b = a := fun h => hab h.symm
        exact Or.inr (by simp [lexLe, hba, hgt])

theorem lexLe_antisymm : ∀ x y, lexLe x y = true → lexLe y x = true → x = y
  | [], [], _, _ => rfl
  | [], _ :: _, _, h => by simp [lexLe] at h
  | _ :: _, [], h, _ => by simp [lexLe] at h
  | a :: as, b :: bs, h₁, h₂ => by
    by_cases hab : a = b
    · subst hab
      simp only [lexLe, if_pos rfl] at h₁ h₂
      rw [lexLe_antisymm as bs h₁ h₂]
    · have hba : ¬ b = a := fun h => hab h.symm
      simp only [lexLe, if_neg hab, decide_eq_true_eq] at h₁
      simp only [lexLe, if_neg hba, decide_eq_true_eq] at h₂
      exact absurd h₂ (lt_asymm h₁)

theorem lexLe_trans : ∀ x y z, lexLe x y = true → lexLe y z = true → lexLe x z = true
  | [], _, _, _, _ => rfl
  | _ :: _, [], _, h, _ => by simp [lexLe] at h
  | _ :: _, _ :: _, [], _, h => by simp [lexLe] at h
  | a :: as, b :: bs, c :: cs, h₁, h₂ => by
    by_cases hab : a = b <;> by_cases hbc : b = c
    · subst hab; subst hbc
      simp only [lexLe, if_pos rfl] at h₁ h₂ ⊢
      exact lexLe_trans as bs cs h₁ h₂
    · subst hab
      simpa [lexLe, hbc] using h₂
    · subst hbc
      simpa [lexLe, hab] using h₁
    · simp only [lexLe, if_neg hab, decide_eq_true_eq] at h₁
      simp only [lexLe, if_neg hbc, decide_eq_true_eq] at h₂
      have hac : a < c := lt_trans h₁ h₂
      have hne : ¬ a = c := fun h => absurd (h ▸ h₁) (lt_asymm h₂)
      simp [lexLe, hne, hac]

/-- Key order used by `sort_keys=True`: lexicographic on the key
strings. -/
def kvLE (a b : String × SVal) : Prop := lexLe a.1.data b.1.data = true

instance : DecidableRel kvLE := fun a b =>
  inferInstanceAs (Decidable (lexLe a.1.data b.1.data = true))

instance : IsTotal (String × SVal) kvLE := ⟨fun a b => lexLe_total a.1.data b.1.data⟩

instance : IsTrans (String × SVal) kvLE :=
  ⟨fun a b c hab hbc => lexLe_trans a.1.data b.1.data c.1.data hab hbc⟩

/-- Strict-on-keys version of `kvLE`, used to pin down the sorted
form. -/
def kvLT (a b : String × SVal) : Prop := kvLE a b ∧ ¬ a.1 = b.1

instance : IsAntisymm (String × SVal) kvLT :=
  ⟨fun a b h₁ h₂ =>
    absurd (String.ext (lexLe_antisymm a.1.data b.1.data h₁.1 h₂.1)) h₁.2⟩

/-- Model of `json.dumps(record, sort_keys=True)` for a dict whose
values are salient attributes: keys sorted lexicographically, entries
rendered `"key": value` and joined with `", "` inside braces — the
CPython default separators (comma-space and colon-space) keep one space after each
colon and comma. -/
def jsonDumpsSorted (kw : List (String × SVal)) : Option String :=
  ((List.insertionSort kvLE kw).mapM
      (fun p => (jsonValStr p.2).map (fun vs => jsonQuote p.1 ++ ": " ++ vs))).map
    (fun parts => "\x7b" ++ String.intercalate ", " parts ++ "\x7d")

/-- UTF-8 bytes of one unicode scalar value, as produced by
Python `str.encode()`. -/
def utf8Bytes (c : Char) : List Nat :=
  let n := c.toNat
  if n < 128 then [n]
  else if n < 2048 then [192 + n / 64, 128 + n % 64]
  else if n < 65536 then [224 + n / 4096, 128 + n / 64 % 64, 128 + n % 64]
  else [240 + n / 262144, 128 + n / 4096 % 64, 128 + n / 64 % 64, 128 + n % 64]

/-- Python `s.encode()`. -/
def strEncode (s : String) : List Nat := (s.data.map utf8Bytes).flatten

/-! ### hashlib.sha256(...).hexdigest() (FIPS 180-4) -/

/-- Truncation to a 32-bit word. -/
def w32 (x : Nat) : Nat := x % 4294967296

/-- Right rotation of a 32-bit word by `n`. -/
def rotr (n x : Nat) : Nat := w32 (x >>> n + x % 2 ^ n * 2 ^ (32 - n))

def bigS0 (x : Nat) : Nat := rotr 2 x ^^^ rotr 13 x ^^^ rotr 22 x

def bigS1 (x : Nat) : Nat := rotr 6 x ^^^ rotr 11 x ^^^ rotr 25 x

def smallS0 (x : Nat) : Nat := rotr 7 x ^^^ rotr 18 x ^^^ x >>> 3

def smallS1 (x : Nat) : Nat := rotr 17 x ^^^ rotr 19 x ^^^ x >>> 10

def shaCh (e f g : Nat) : Nat := e &&& f ^^^ (e ^^^ 4294967295) &&& g

def shaMaj (a b c : Nat) : Nat := a &&& b ^^^ a &&& c ^^^ b &&& c

/-- Big-endian byte rendering of `n` on `k` bytes. -/
def toBytesBE : Nat → Nat → List Nat
  | 0, _ => []
  | k + 1, n => toBytesBE k (n / 256) ++ [n % 256]

/-- SHA-256 message padding: `0x80`, zeros to 56 mod 64, then the
bit length on 8 bytes. -/
def sha256pad (msg : List Nat) : List Nat :=
  msg ++ 128 :: List.replicate ((119 - msg.length % 64) % 64) 0 ++ toBytesBE 8 (msg.length * 8)

/-- Big-endian 32-bit words from a byte list whose length is a
multiple of 4. -/
def bytesToWordsBE : List Nat → List Nat
  | b1 :: b2 :: b3 :: b4 :: rest =>
    (b1 * 16777216 + b2 * 65536 + b3 * 256 + b4) :: bytesToWordsBE rest
  | _ => []

/-- Split a word list into 16-word blocks. -/
def chunks16 (l : List Nat) : List (List Nat) :=
  if h : l = [] then [] else l.take 16 :: chunks16 (l.drop 16)
termination_by l.length
decreasing_by
  simp only [List.length_drop]
  have := List.length_pos.mpr h
  omega

/-- The 64 SHA-256 round constants of FIPS 180-4, written in decimal. -/
def sha256K : List Nat :=
  [1116352408, 1899447441, 3049323471, 3921009573, 961987163,
   1508970993, 2453635748, 2870763221, 3624381080, 310598401,
   607225278, 1426881987, 1925078388, 2162078206, 2614888103,
   3248222580, 3835390401, 4022224774, 264347078, 604807628,
   770255983, 1249150122, 1555081692, 1996064986, 2554220882,
   2821834349, 2952996808, 3210313671, 3336571891, 3584528711,
   113926993, 338241895, 666307205, 773529912, 1294757372,
   1396182291, 1695183700, 1986661051, 2177026350, 2456956037,
   2730485921, 2820302411, 3259730800, 3345764771, 3516065817,
   3600352804, 4094571909, 275423344, 430227734, 506948616,
   659060556, 883997877, 958139571, 1322822218, 1537002063,
   1747873779, 1955562222, 2024104815, 2227730452, 2361852424,
   2428436474, 2756734187, 3204031479, 3329325298]

/-- Working state of the SHA-256 compression function. -/
structure SHA256State where
  a : Nat
  b : Nat
  c : Nat
  d : Nat
  e : Nat
  f : Nat
  g : Nat
  h : Nat
deriving Repr

/-- The eight initial hash values of FIPS 180-4, written in decimal. -/
def sha256Init : SHA256State :=
  ⟨1779033703, 3144134277, 1013904242, 2773480762,
   1359893119, 2600822924, 528734635, 1541459225⟩

/-- Extend a 16-word block to the 64-word message schedule. -/
def extendSchedule (w : Array Nat) : Array Nat :=
  (List.range 48).foldl
    (fun w _ =>
      let i := w.size
      w.push (w32 (w.getD (i - 16) 0 + smallS0 (w.getD (i - 15) 0)
        + w.getD (i - 7) 0 + smallS1 (w.getD (i - 2) 0))))
    w

def sha256Round (st : SHA256State) (k w : Nat) : SHA256State :=
  let t1 := w32 (st.h + bigS1 st.e + shaCh st.e st.f st.g + k + w)
  let t2 := w32 (bigS0 st.a + shaMaj st.a st.b st.c)
  ⟨w32 (t1 + t2), st.a, st.b, st.c, w32 (st.d + t1), st.e, st.f, st.g⟩

def sha256Chunk (st : SHA256State) (chunk : List Nat) : SHA256State :=
  let w := extendSchedule chunk.toArray
  let fin := (List.zip sha256K w.toList).foldl (fun s kw => sha256Round s kw.1 kw.2) st
  ⟨w32 (st.a + fin.a), w32 (st.b + fin.b), w32 (st.c + fin.c), w32 (st.d + fin.d),
   w32 (st.e + fin.e), w32 (st.f + fin.f), w32 (st.g + fin.g), w32 (st.h + fin.h)⟩

/-- Eight lowercase hex digits of a 32-bit word. -/
def toHex8 (n : Nat) : String :=
  hex4 (n / 65536) ++ hex4 (n % 65536)

/-- Model of `hash_bytes` in `deduping.py`:
`hashlib.sha256(b).hexdigest()`. -/
def hash_bytes (msg : List Nat) : String :=
  let st := (chunks16 (bytesToWordsBE (sha256pad msg))).foldl sha256Chunk sha256Init
  toHex8 st.a ++ toHex8 st.b ++ toHex8 st.c ++ toHex8 st.d
    ++ toHex8 st.e ++ toHex8 st.f ++ toHex8 st.g ++ toHex8 st.h

/-! ### DedupeKeyMeta -/

/-- Key-derivation body of `DedupeKeyMeta.__init__`.  `none` models a
raised exception (`json.dumps` `TypeError` on non-serializable values,
or `hashlib` / `str.split` on ill-typed arguments); none of these can
fire on arguments respecting the `SalientAttributes` TypedDict.
Faithful control flow: a truthy `natural_key` short-circuits to
`underlying`; otherwise `data` is popped, a truthy payload is replaced
by `payload_hash = hash_bytes(data)` merged before the remaining
keyword arguments, and the key is the SHA-256 hex digest of
`json.dumps(salient, sort_keys=True).encode()`. -/
def dedupeKeyInit (kw : List (String × SVal)) : Option String :=
  let nk := lookupKw "natural_key" kw
  if svalTruthy nk then
    match nk with
    | some (.str s) => some (underlying s)
    | _ => none
  else
    let dataVal := lookupKw "data" kw
    let kwRest := removeKw "data" kw
    let salient : Option (List (String × SVal)) :=
      match dataVal with
      | some (.bytes b) =>
        if ¬ b = [] then some (("payload_hash", SVal.str (hash_bytes b)) :: kwRest)
        else some kwRest
      | some (.str s) => if ¬ s = "" then none else some kwRest
      | none => some kwRest
    match salient with
    | none => none
    | some sal => (jsonDumpsSorted sal).map (fun js => hash_bytes (strEncode js))

/-- Concrete kinds of `DedupeKeyMeta`: `DedupeKey` and `AlertKey`,
which differ only in `prefix()`. -/
inductive DKind where
  | dedupe
  | alert
deriving DecidableEq, Repr

/-- Classmethod `prefix()` of each concrete kind. -/
def DKind.pfx : DKind → String
  | .dedupe => "dedupe"
  | .alert => "alert"

/-- A constructed dedupe-key value: its concrete class and its `_key`
attribute. -/
structure DKey where
  kind : DKind
  key : String
deriving DecidableEq, Repr

/-- Construction of a `DedupeKey` / `AlertKey` from keyword arguments;
`none` models a raised exception. -/
def mkDKey (kind : DKind) (kw : List (String × SVal)) : Option DKey :=
  (dedupeKeyInit kw).map (fun k => ⟨kind, k⟩)

/-- Model of `DedupeKeyMeta.__str__`: `f"{self.prefix()}:{self._key}"`. -/
def dkeyStr (d : DKey) : String := d.kind.pfx ++ ":" ++ d.key

/-- Argument of `DedupeKeyMeta.__eq__`: either another dedupe-key value
(of any concrete kind) or some unrelated object. -/
inductive DedupeEqArg where
  | dkey (d : DKey)
  | nonKey
deriving DecidableEq, Repr

/-- Model of `DedupeKeyMeta.__eq__`: key comparison when the other
operand is a `DedupeKeyMeta`, `False` otherwise; the prefix never
participates. -/
def dkeyPyEq (a : DKey) (v : DedupeEqArg) : Bool :=
  match v with
  | .dkey b => a.key == b.key
  | .nonKey => false

/-- Unstructure hook from `dedupe_key_des_hook_factory`: `str(v)`. -/
def dedupeDesHook (d : DKey) : String := dkeyStr d

/-- Structure hook from `dedupe_key_res_hook_factory` on a string
input: strips the prefix with `cls.underlying` and rebuilds via
`cls(natural_key=key)`. -/
def dedupeResHook (kind : DKind) (v : String) : Option DKey :=
  mkDKey kind [("natural_key", SVal.str (underlying v))]

/-! ## _types.py and converters/sentinels.py — sentinel subtypes

`typing_extensions.Sentinel` (the base of `SentinelMeta`) defines no
`__eq__`, no `__bool__` and no instance registry, and its `__repr__`
wraps the sentinel name in angle brackets.  `NotImplementSentinel`
overrides `__eq__` to compare
classes; `OmittedDefaultSentinel` therefore inherits plain object
identity.  Instances are modelled with their class together with a
CPython object identity (`objId`); distinct live allocations carry
distinct identities. -/

inductive SentinelCls where
  | omittedDefault
  | notImplement
deriving DecidableEq, Repr

/-- Static method `value()` of each sentinel subtype: its fixed label. -/
def SentinelCls.label : SentinelCls → String
  | .omittedDefault => "OMITTED"
  | .notImplement => "NOT-IMPLEMENTED"

/-- A sentinel instance: its subtype and its object identity. -/
structure SentinelInst where
  cls : SentinelCls
  objId : Nat
deriving DecidableEq, Repr

/-- Both subtypes override `__bool__` to return `False`. -/
def sentinelBool (_ : SentinelInst) : Bool := false

/-- Overridden `__str__`: `self.value()`. -/
def sentinelStr (x : SentinelInst) : String := x.cls.label

/-- Python `==` on sentinel instances.  `NotImplementSentinel.__eq__`
compares `self.__class__ == other.__class__`; `OmittedDefaultSentinel`
falls back to `object.__eq__` (identity), whose reflected retry on a
`NotImplementSentinel` right operand also compares classes and fails. -/
def sentinelPyEq (a b : SentinelInst) : Bool :=
  match a.cls with
  | .notImplement => b.cls == SentinelCls.notImplement
  | .omittedDefault => a.cls == b.cls && a.objId == b.objId

/-- Wire-side input of the sentinel structure hook. -/
inductive SentinelWire where
  | str (s : String)
  | inst (x : SentinelInst)
deriving DecidableEq, Repr

/-- Unstructure hook from `sentinel_des_hook_factory`: `str(v)`. -/
def sentinelDesHook (x : SentinelInst) : String := sentinelStr x

/-- Structure hook from `sentinel_res_hook_factory`: the exact label
string yields `cls.make()` (a fresh allocation, identity `freshId`),
an existing instance of `cls` passes through, anything else raises
(`none`). -/
def sentinelResHook (cls : SentinelCls) (freshId : Nat) : SentinelWire → Option SentinelInst
  | .str s => if s = cls.label then some ⟨cls, freshId⟩ else none
  | .inst x => if x.cls = cls then some x else none

/-! ## Canonicalization is insertion-order independent -/

/-- Keyword lookup is invariant under permutation of a duplicate-free
keyword dict. -/
theorem lookupKw_perm {kw₁ kw₂ : List (String × SVal)} (h : kw₁.Perm kw₂)
    (hnd : (kw₁.map Prod.fst).Nodup) (k : String) : lookupKw k kw₁ = lookupKw k kw₂ := by
  induction h with
  | nil => rfl
  | cons x h' ih =>
    simp only [lookupKw]
    by_cases hx : x.1 = k
    · simp [hx]
    · simp only [hx, if_false]
      rw [List.map_cons] at hnd
      exact ih (List.nodup_cons.mp hnd).2
  | swap x y l =>
    rw [List.map_cons, List.map_cons] at hnd
    have hxy : y.1 ≠ x.1 := by
      have hmem := (List.nodup_cons.mp hnd).1
      simp only [List.mem_cons] at hmem
      push_neg at hmem
      exact hmem.1
    simp only [lookupKw]
    by_cases hy : y.1 = k <;> by_cases hx : x.1 = k
    · exact absurd (hy.trans hx.symm) hxy
    · simp [hy, hx]
    · simp [hy, hx]
    · simp [hy, hx]
  | trans h₁ h₂ ih₁ ih₂ =>
    rw [ih₁ hnd, ih₂ ((h₁.map Prod.fst).nodup_iff.mp hnd)]

/-- The keys of a filtered keyword dict stay duplicate-free. -/
theorem nodup_keys_filter (p : String × SVal → Bool) {kw : List (String × SVal)}
    (hnd : (kw.map Prod.fst).Nodup) : ((kw.filter p).map Prod.fst).Nodup :=
  ((List.filter_sublist kw).map Prod.fst).nodup hnd

/-- A `kvLE`-sorted list with duplicate-free keys is strictly sorted. -/
theorem sorted_lt_of_sorted_le_nodup {l : List (String × SVal)}
    (hs : List.Sorted kvLE l) (hnd : (l.map Prod.fst).Nodup) : List.Sorted kvLT l := by
  have hne : l.Pairwise (fun a b => a.1 ≠ b.1) := List.pairwise_map.mp hnd
  exact (List.Pairwise.and hs hne).imp (fun h => ⟨h.1, h.2⟩)

/-- Sorting with `sort_keys=True` lands permuted duplicate-free dicts
on the same list. -/
theorem insertionSort_eq_of_perm {l₁ l₂ : List (String × SVal)} (h : l₁.Perm l₂)
    (hnd : (l₁.map Prod.fst).Nodup) :
    List.insertionSort kvLE l₁ = List.insertionSort kvLE l₂ := by
  have hp₁ := List.perm_insertionSort kvLE l₁
  have hp₂ := List.perm_insertionSort kvLE l₂
  have hp : (List.insertionSort kvLE l₁).Perm (List.insertionSort kvLE l₂) :=
    hp₁.trans (h.trans hp₂.symm)
  have hnd₁ : ((List.insertionSort kvLE l₁).map Prod.fst).Nodup :=
    (hp₁.map Prod.fst).nodup_iff.mpr hnd
  have hnd₂ : ((List.insertionSort kvLE l₂).map Prod.fst).Nodup :=
    (hp.map Prod.fst).nodup_iff.mp hnd₁
  exact List.eq_of_perm_of_sorted hp
    (sorted_lt_of_sorted_le_nodup (List.sorted_insertionSort kvLE l₁) hnd₁)
    (sorted_lt_of_sorted_le_nodup (List.sorted_insertionSort kvLE l₂) hnd₂)

/-- `json.dumps(..., sort_keys=True)` is invariant under permutation of
a duplicate-free record. -/
theorem jsonDumpsSorted_perm {l₁ l₂ : List (String × SVal)} (h : l₁.Perm l₂)
    (hnd : (l₁.map Prod.fst).Nodup) : jsonDumpsSorted l₁ = jsonDumpsSorted l₂ := by
  simp [jsonDumpsSorted, insertionSort_eq_of_perm h hnd]

/-- A key absent from the dict looks up to nothing. -/
theorem lookupKw_eq_none {k : String} {kw : List (String × SVal)}
    (h : k ∉ kw.map Prod.fst) : lookupKw k kw = none := by
  induction kw with
  | nil => rfl
  | cons p rest ih =>
    simp only [List.map_cons, List.mem_cons] at h
    push_neg at h
    have hne : ¬ p.1 = k := fun hEq => h.1 hEq.symm
    simp only [lookupKw]
    rw [if_neg hne]
    exact ih h.2

/-- Field discipline of the `SalientAttributes` TypedDict: only the
four declared keyword arguments, `data` carrying bytes and the rest
strings. -/
def allowedField : String × SVal → Bool
  | ("natural_key", .str _) => true
  | ("data", .bytes _) => true
  | ("trace_id", .str _) => true
  | ("request_id", .str _) => true
  | _ => false

/-- A well-formed keyword-argument list for `DedupeKeyMeta.__init__`:
keys are pairwise distinct (Python keywords cannot repeat) and every
field respects the TypedDict. -/
def WFSalientKwargs (kw : List (String × SVal)) : Prop :=
  (kw.map Prod.fst).Nodup ∧ ∀ p ∈ kw, allowedField p = true

instance : DecidablePred WFSalientKwargs := fun kw =>
  inferInstanceAs
    (Decidable ((kw.map Prod.fst).Nodup ∧ ∀ p ∈ kw, allowedField p = true))

/-- The reserved key `payload_hash` cannot occur among well-formed
keyword arguments. -/
theorem payload_hash_not_mem {kw : List (String × SVal)} (h : WFSalientKwargs kw) :
    "payload_hash" ∉ kw.map Prod.fst := by
  intro hmem
  rcases List.mem_map.mp hmem with ⟨p, hp, hfst⟩
  have := h.2 p hp
  obtain ⟨k, v⟩ := p
  simp only at hfst
  subst hfst
  cases v <;> simp [allowedField] at this

/-- Removing a key that is absent is the identity. -/
theorem removeKw_eq_self {k : String} {kw : List (String × SVal)}
    (h : k ∉ kw.map Prod.fst) : removeKw k kw = kw := by
  induction kw with
  | nil => rfl
  | cons p rest ih =>
    simp only [List.map_cons, List.mem_cons] at h
    push_neg at h
    have hne : ¬ p.1 = k := fun hEq => h.1 hEq.symm
    have hstep : removeKw k (p :: rest) = p :: removeKw k rest := by
      simp only [removeKw, List.filter_cons]
      rw [if_pos (decide_eq_true hne)]
    rw [hstep, ih h.2]

/-- Key derivation is invariant under permutation of the keyword
arguments for any duplicate-free dict that cannot collide with the
reserved `payload_hash` key. -/
theorem dedupeKeyInit_perm {kw₁ kw₂ : List (String × SVal)} (h : kw₁.Perm kw₂)
    (hnd : (kw₁.map Prod.fst).Nodup) (hph : "payload_hash" ∉ kw₁.map Prod.fst) :
    dedupeKeyInit kw₁ = dedupeKeyInit kw₂ := by
  have hlook := lookupKw_perm h hnd
  have hrest : (removeKw "data" kw₁).Perm (removeKw "data" kw₂) :=
    List.Perm.filter _ h
  have hndRest : ((removeKw "data" kw₁).map Prod.fst).Nodup :=
    nodup_keys_filter _ hnd
  have hphRest : "payload_hash" ∉ (removeKw "data" kw₁).map Prod.fst := by
    intro hmem
    exact hph (((List.filter_sublist kw₁).map Prod.fst).mem hmem)
  have hdumpRest : jsonDumpsSorted (removeKw "data" kw₁)
      = jsonDumpsSorted (removeKw "data" kw₂) :=
    jsonDumpsSorted_perm hrest hndRest
  have hdumpPh : ∀ v : SVal,
      jsonDumpsSorted (("payload_hash", v) :: removeKw "data" kw₁)
        = jsonDumpsSorted (("payload_hash", v) :: removeKw "data" kw₂) := by
    intro v
    apply jsonDumpsSorted_perm (hrest.cons _)
    rw [List.map_cons]
    exact List.nodup_cons.mpr ⟨hphRest, hndRest⟩
  simp only [dedupeKeyInit]
  rw [hlook "natural_key", hlook "data"]
  cases svalTruthy (lookupKw "natural_key" kw₂)
  · simp only [Bool.false_eq_true, if_false]
    cases lookupKw "data" kw₂ with
    | none => simp [hdumpRest]
    | some v =>
      cases v with
      | str s =>
        by_cases hs : s = ""
        · simp [hs, hdumpRest]
        · simp [hs]
      | bytes b =>
        by_cases hb : b = []
        · simp [hb, hdumpRest]
        · simp [hb, hdumpPh]
  · rfl

/-! ## Facts about `underlying` and the natural-key path -/

theorem splitAfterFirst_of_not_mem {sep : Char} {l : List Char} (h : sep ∉ l) :
    splitAfterFirst sep l = none := by
  induction l with
  | nil => rfl
  | cons c rest ih =>
    simp only [List.mem_cons] at h
    push_neg at h
    simp only [splitAfterFirst]
    rw [if_neg (fun hEq => h.1 hEq.symm)]
    exact ih h.2

/-- A colon-free string is its own `underlying`. -/
theorem underlying_of_no_colon {s : String} (h : ':' ∉ s.data) : underlying s = s := by
  simp [underlying, splitOnceTail, splitAfterFirst_of_not_mem h]

theorem splitAfterFirst_append (sep : Char) (k : List Char) :
    ∀ p : List Char, sep ∉ p → splitAfterFirst sep (p ++ sep :: k) = some k
  | [], _ => by simp [splitAfterFirst]
  | c :: rest, hp => by
    have hp' := hp
    simp only [List.mem_cons] at hp'
    push_neg at hp'
    simp only [List.cons_append, splitAfterFirst]
    rw [if_neg (fun hEq => hp'.1 hEq.symm)]
    exact splitAfterFirst_append sep k rest hp'.2

/-- Stripping everything up to the first colon undoes prefixing with a
colon-free prefix. -/
theorem underlying_pfx_append (p k : String) (hp : ':' ∉ p.data) :
    underlying (p ++ ":" ++ k) = k := by
  have hdata : (p ++ ":" ++ k).data = p.data ++ ':' :: k.data := by
    simp [String.data_append]
  simp only [underlying, splitOnceTail, hdata, splitAfterFirst_append ':' k.data p.data hp]

/-- A truthy `natural_key` keyword short-circuits the whole derivation
to `underlying(natural_key)`, whatever else was passed. -/
theorem dedupeKeyInit_natural_cons {nk : String} (hnk : ¬ nk = "")
    (kw : List (String × SVal)) :
    dedupeKeyInit (("natural_key", SVal.str nk) :: kw) = some (underlying nk) := by
  simp [dedupeKeyInit, lookupKw, svalTruthy, hnk]

/-! ## Claim theorems -/

/-- C1: the claim states that every valid raw name accepted by a
stamping strategy constructs successfully with
`unstamp(stamp(N)) == N`.  The static-suffix strategy
(`StagingTableName`) does satisfy this for every table triple, but
`UtcVersionStampedTableName` construction raises `VersionStampError`
for every input — `_find_split_point` tests `isnumeric()` before the
underscore test, and the stamp embeds a literal `T`, so unstamping
always yields the `FAILED_OP` sentinel rendered as `"<FAILED_OP>"`. -/
theorem c1_utc_always_raises_staging_roundtrips :
    mkUtcVersionStampedTableName "20260101T000000" ⟨"p", "d", "t"⟩
      = .error (.versionStamp
          ⟨"p.d.t", "p.d.t_20260101T000000", "p.d.t_20260101T000000"⟩)
    ∧ ∀ t : TableInfo, mkStagingTableName t = .ok t :=
  ⟨rfl, mkStagingTableName_ok⟩

/-- C2: without a natural key, dedupe-key derivation depends only on
the key/value set of the salient attributes, not on their insertion
order: any permutation of a well-formed keyword dict derives the same
key, and (the derivation being a pure function) equal inputs always
derive equal keys. -/
theorem c2_dedupe_key_order_independent {kw₁ kw₂ : List (String × SVal)}
    (hwf : WFSalientKwargs kw₁) (hperm : kw₁.Perm kw₂)
    (_hnk : lookupKw "natural_key" kw₁ = none) :
    dedupeKeyInit kw₁ = dedupeKeyInit kw₂ :=
  dedupeKeyInit_perm hperm hwf.1 (payload_hash_not_mem hwf)

/-- C2 witness: the docstring example — the same three salient
attributes in two different keyword orders derive the same key. -/
theorem c2_witness :
    WFSalientKwargs
        [("trace_id", SVal.str "123"), ("request_id", SVal.str "456"),
          ("data", SVal.bytes [1, 2])]
    ∧ dedupeKeyInit
        [("trace_id", SVal.str "123"), ("request_id", SVal.str "456"),
          ("data", SVal.bytes [1, 2])]
      = dedupeKeyInit
        [("data", SVal.bytes [1, 2]), ("request_id", SVal.str "456"),
          ("trace_id", SVal.str "123")] :=
  ⟨by decide,
    c2_dedupe_key_order_independent (by decide)
      (by decide) (by decide)⟩

/-- C3: the claim states that unstamping `base + "_" + digits` returns
`base`.  In the code the underscore branch of `_find_split_point` is
unreachable (the underscore fails the preceding `isnumeric()` test), so the
cleaner returns the `FAILED_OP` sentinel (`none` here) on every input,
including well-formed ones such as `"foo_123"`; it indeed never raises. -/
theorem c3_utc_cleaner_always_fails :
    (∀ s : String, utcNumericVersionCleaner s = none)
    ∧ utcNumericVersionCleaner "foo_123" = none :=
  ⟨fun s => by simp [utcNumericVersionCleaner, findSplitPoint_eq_none],
    by simp [utcNumericVersionCleaner, findSplitPoint_eq_none]⟩

/-- C4: the claim states the raised round-trip error carries
`unstamped_name = unstamp(stamp(raw))` (or a placeholder).  The source
`_attempt_assign(False)` assigns `self.stamped` under the
`"unstamped_name"` key, so the error raised for `proj.ds.tbl` carries
the stamped name there, which differs from the actual unstamp result
`"<FAILED_OP>"`. -/
theorem c4_error_unstamped_field_is_stamped_value :
    mkUtcVersionStampedTableName "20250102T030405" ⟨"proj", "ds", "tbl"⟩
      = .error (.versionStamp
          ⟨"proj.ds.tbl", "proj.ds.tbl_20250102T030405", "proj.ds.tbl_20250102T030405"⟩)
    ∧ utcUnstamp (utcNumericVersionStamp "20250102T030405" "proj.ds.tbl") = "<FAILED_OP>"
    ∧ ("proj.ds.tbl_20250102T030405" : String) ≠ "<FAILED_OP>" :=
  ⟨rfl, rfl, by decide⟩

/-- C5 counterexample: for the key `"a:b"` (containing a colon) the
claim `parse(render(K, key)).key == key` fails — the structure hook
strips up to the first colon and the constructor strips again via
`underlying`, leaving `"b"`. -/
theorem c5_counterexample_colon_in_key :
    (dedupeResHook DKind.dedupe (dkeyStr ⟨DKind.dedupe, "a:b"⟩)).map DKey.key = some "b"
    ∧ ¬ (dedupeResHook DKind.dedupe (dkeyStr ⟨DKind.dedupe, "a:b"⟩)).map DKey.key
        = some "a:b" :=
  ⟨rfl, by decide⟩

/-- C5 amended: for every kind and every non-empty, colon-free key,
rendering yields `"prefix:key"`, splitting the rendered string at the
first colon recovers the key, and the structure hook on the rendered
string rebuilds a value whose `key` attribute is the original key. -/
theorem c5_render_parse_roundtrip (kind : DKind) (k : String)
    (hne : ¬ k = "") (hcolon : ':' ∉ k.data) :
    dkeyStr ⟨kind, k⟩ = kind.pfx ++ ":" ++ k
    ∧ splitOnceTail ':' (dkeyStr ⟨kind, k⟩) = k
    ∧ (dedupeResHook kind (dkeyStr ⟨kind, k⟩)).map DKey.key = some k := by
  have hpfx : ':' ∉ kind.pfx.data := by cases kind <;> decide
  have hu : underlying (dkeyStr ⟨kind, k⟩) = k := by
    simp only [dkeyStr]
    exact underlying_pfx_append _ _ hpfx
  refine ⟨rfl, hu, ?_⟩
  simp only [dedupeResHook, mkDKey, hu]
  rw [show ([("natural_key", SVal.str k)] : List (String × SVal))
      = ("natural_key", SVal.str k) :: [] from rfl,
    dedupeKeyInit_natural_cons hne, underlying_of_no_colon hcolon]
  rfl

/-- C5 witness: the amended round trip at kind `dedupe`, key `"abc"`. -/
theorem c5_witness :
    splitOnceTail ':' (dkeyStr ⟨DKind.dedupe, "abc"⟩) = "abc"
    ∧ (dedupeResHook DKind.dedupe (dkeyStr ⟨DKind.dedupe, "abc"⟩)).map DKey.key
        = some "abc" :=
  ⟨(c5_render_parse_roundtrip DKind.dedupe "abc" (by decide) (by decide)).2.1,
    (c5_render_parse_roundtrip DKind.dedupe "abc" (by decide) (by decide)).2.2⟩

/-- C6: a non-empty natural key short-circuits derivation — with any
other salient attributes present the derived key is the same as with
the natural key alone, namely `underlying(natural_key)` (the key with
any existing `"prefix:"` segment stripped, used verbatim). -/
theorem c6_natural_key_short_circuits (nk : String) (kw : List (String × SVal))
    (hnk : ¬ nk = "") :
    dedupeKeyInit (("natural_key", SVal.str nk) :: kw)
      = dedupeKeyInit [("natural_key", SVal.str nk)]
    ∧ dedupeKeyInit (("natural_key", SVal.str nk) :: kw) = some (underlying nk) := by
  have h₁ := dedupeKeyInit_natural_cons hnk kw
  have h₂ := dedupeKeyInit_natural_cons hnk []
  exact ⟨h₁.trans h₂.symm, h₁⟩

/-- C6 witness: `natural_key="abc"` with payload bytes and a trace id
derives the same key as `natural_key="abc"` alone. -/
theorem c6_witness :
    dedupeKeyInit
        [("natural_key", SVal.str "abc"), ("data", SVal.bytes [120]),
          ("trace_id", SVal.str "t")]
      = dedupeKeyInit [("natural_key", SVal.str "abc")] :=
  (c6_natural_key_short_circuits "abc"
    [("data", SVal.bytes [120]), ("trace_id", SVal.str "t")] (by decide)).1

/-- C7: `DedupeKeyMeta.__eq__` compares two key values (of any
concrete kinds) equal exactly when their `key` strings are equal; the
prefix plays no role, so a `DedupeKey` and an `AlertKey` with one key
string always compare equal. -/
theorem c7_eq_iff_key_eq :
    (∀ a b : DKey, dkeyPyEq a (.dkey b) = true ↔ a.key = b.key)
    ∧ ∀ (k₁ k₂ : DKind) (s : String), dkeyPyEq ⟨k₁, s⟩ (.dkey ⟨k₂, s⟩) = true := by
  constructor
  · intro a b
    simp [dkeyPyEq]
  · intro k₁ k₂ s
    simp [dkeyPyEq]

/-- C8 counterexample: the canonical serialization of a two-field
record contains U+0020 spaces (after each colon and comma), refuting
the "no incidental whitespace" part of the claim. -/
theorem c8_counterexample_whitespace :
    (jsonDumpsSorted [("a", SVal.str "x"), ("b", SVal.str "y")]).map strEncode
      = some (strEncode "\x7b\"a\": \"x\", \"b\": \"y\"\x7d")
    ∧ 32 ∈ strEncode "\x7b\"a\": \"x\", \"b\": \"y\"\x7d" :=
  ⟨by decide, by decide⟩

/-- C8 amended: the canonical serialization sorts keys
lexicographically and uses the fixed CPython separators `": "` and
`", "` (which do contain single spaces); it is deterministic, and two
records with the same key/value set in any insertion order serialize
to identical bytes. -/
theorem c8_canonicalization_sorted_deterministic {kw₁ kw₂ : List (String × SVal)}
    (hperm : kw₁.Perm kw₂) (hnd : (kw₁.map Prod.fst).Nodup) :
    (jsonDumpsSorted kw₁).map strEncode = (jsonDumpsSorted kw₂).map strEncode
    ∧ List.Sorted (fun x y : String => lexLe x.data y.data = true)
        ((List.insertionSort kvLE kw₁).map Prod.fst) := by
  refine ⟨by rw [jsonDumpsSorted_perm hperm hnd], ?_⟩
  exact List.pairwise_map.mpr (List.sorted_insertionSort kvLE kw₁)

/-- C8 witness: the amended statement at a concrete two-field record
and a transposition of it. -/
theorem c8_witness :
    (jsonDumpsSorted [("b", SVal.str "y"), ("a", SVal.str "x")]).map strEncode
      = (jsonDumpsSorted [("a", SVal.str "x"), ("b", SVal.str "y")]).map strEncode :=
  (c8_canonicalization_sorted_deterministic (by decide) (by decide)).1

/-- C9 counterexample: two distinct allocations of
`OmittedDefaultSentinel` (same subtype) are not equal —
`typing_extensions.Sentinel` and `OmittedDefaultSentinel` define no
`__eq__`, so equality is object identity; this also makes the
structured-back instance unequal to the original. -/
theorem c9_counterexample_omitted_instances_unequal :
    sentinelPyEq ⟨SentinelCls.omittedDefault, 0⟩ ⟨SentinelCls.omittedDefault, 1⟩ = false :=
  rfl

/-- C9 amended: every sentinel instance is falsy; destructuring yields
the fixed label of the subtype; structuring that label back yields a fresh
instance of the subtype (which again destructures to the label); and
for `NotImplementSentinel` — whose `__eq__` compares classes — the
fresh instance is equal to the original.  For
`OmittedDefaultSentinel` equality is object identity, so distinct
instances are unequal. -/
theorem c9_sentinel_laws (x : SentinelInst) (freshId : Nat) :
    sentinelBool x = false
    ∧ sentinelDesHook x = x.cls.label
    ∧ sentinelResHook x.cls freshId (.str (sentinelDesHook x)) = some ⟨x.cls, freshId⟩
    ∧ (x.cls = SentinelCls.notImplement → sentinelPyEq x ⟨x.cls, freshId⟩ = true) := by
  refine ⟨rfl, rfl, by simp [sentinelResHook, sentinelDesHook, sentinelStr], ?_⟩
  intro hcls
  simp [sentinelPyEq, hcls]

/-- C9 witness: the amended statement at a concrete
`NotImplementSentinel` instance, discharging the class hypothesis. -/
theorem c9_witness :
    sentinelPyEq ⟨SentinelCls.notImplement, 0⟩ ⟨SentinelCls.notImplement, 5⟩ = true :=
  (c9_sentinel_laws ⟨SentinelCls.notImplement, 0⟩ 5).2.2.2 rfl

/-- C10: with no natural key present, passing `data=b""` derives
exactly the same key as passing no `data` at all — the falsy payload is
popped and no `payload_hash` field enters the hashed record. -/
theorem c10_empty_data_same_as_absent (kw : List (String × SVal))
    (hd : "data" ∉ kw.map Prod.fst) (hnk : "natural_key" ∉ kw.map Prod.fst) :
    dedupeKeyInit (("data", SVal.bytes []) :: kw) = dedupeKeyInit kw := by
  have hlookNk : lookupKw "natural_key" (("data", SVal.bytes []) :: kw) = none := by
    simp only [lookupKw]
    rw [if_neg (by decide)]
    exact lookupKw_eq_none hnk
  have hlookNk2 : lookupKw "natural_key" kw = none := lookupKw_eq_none hnk
  have hlookD : lookupKw "data" (("data", SVal.bytes []) :: kw)
      = some (SVal.bytes []) := by
    simp [lookupKw]
  have hlookD2 : lookupKw "data" kw = none := lookupKw_eq_none hd
  have hrem : removeKw "data" (("data", SVal.bytes []) :: kw) = kw := by
    have hstep : removeKw "data" (("data", SVal.bytes []) :: kw) = removeKw "data" kw := by
      simp [removeKw, List.filter_cons]
    rw [hstep, removeKw_eq_self hd]
  simp only [dedupeKeyInit, hlookNk, hlookNk2, hlookD, hlookD2, hrem,
    removeKw_eq_self hd]
  simp [svalTruthy]

/-- C10 witness: empty payload bytes versus absent payload over the
two auxiliary fields. -/
theorem c10_witness :
    dedupeKeyInit
        [("data", SVal.bytes []), ("trace_id", SVal.str "t"),
          ("request_id", SVal.str "r")]
      = dedupeKeyInit [("trace_id", SVal.str "t"), ("request_id", SVal.str "r")] :=
  c10_empty_data_same_as_absent
    [("trace_id", SVal.str "t"), ("request_id", SVal.str "r")]
    (by decide) (by decide)

end TypeCellar
